import Mathlib

/-
Shallow embedding of the language-matching and classification-helper core of
the linkedart.js repository.

Embedded from source:
  - src/unnamed/part_000 (LanguageHelpers): DEFAULT_LANGUAGE_LOOKUP, NO_LANGUAGE,
    doesObjectLanguageMatch, getLanguageId, normalizeLanguageId.
  - src/src/helpers/ObjectHelpers.js: getCarriedOutBy.

JavaScript dynamic values are modelled by the inductive type JSVal. Numbers are
modelled as integers (the repository only compares identifiers; no floating
point arithmetic occurs in the embedded code). String lower-casing is ASCII,
matching the identifiers the code operates on. Object identity (reference
equality) is not modelled: JS Set membership (SameValueZero) is rendered as
structural equality, which agrees with JS on all primitive values; all language
entries the embedded code deduplicates in practice are strings. Code that
throws a TypeError at runtime is modelled with the Except monad.
-/

inductive JSVal where
  | vundefined : JSVal
  | vnull : JSVal
  | vbool : Bool → JSVal
  | vnum : Int → JSVal
  | vstr : String → JSVal
  | varr : List JSVal → JSVal
  | vobj : List (String × JSVal) → JSVal

/-- Loose equality to undefined: in JS, `x == undefined` holds exactly for
`undefined` and `null`. Used for the guards `lang_id == undefined`,
`obj == undefined`, `obj.language == undefined`,
`languageOptions.fallbackLanguage != undefined`. -/
def looseEqUndefined : JSVal → Bool
  | .vundefined => true
  | .vnull => true
  | _ => false

/-- JS truthiness, used for the `else if (lang.id)` test. -/
def truthy : JSVal → Bool
  | .vundefined => false
  | .vnull => false
  | .vbool b => b
  | .vnum n => !(n == 0)
  | .vstr s => !(s == "")
  | .varr _ => true
  | .vobj _ => true

mutual

/-- Structural equality on JS values (SameValueZero restricted to our model;
agrees with JS on primitives, which are the only values deduplicated by the
embedded code in practice). -/
def beqJS : JSVal → JSVal → Bool
  | .vundefined, .vundefined => true
  | .vnull, .vnull => true
  | .vbool a, .vbool b => a == b
  | .vnum a, .vnum b => a == b
  | .vstr a, .vstr b => a == b
  | .varr xs, .varr ys => beqJSList xs ys
  | .vobj xs, .vobj ys => beqJSFields xs ys
  | _, _ => false

def beqJSList : List JSVal → List JSVal → Bool
  | [], [] => true
  | x :: xs, y :: ys => beqJS x y && beqJSList xs ys
  | _, _ => false

def beqJSFields : List (String × JSVal) → List (String × JSVal) → Bool
  | [], [] => true
  | (k1, v1) :: xs, (k2, v2) :: ys => k1 == k2 && beqJS v1 v2 && beqJSFields xs ys
  | _, _ => false

end

mutual

/-- String conversion of a JS value occurring as an array element during
Array.prototype.toString (join): undefined and null render as the empty
string, plain objects as the tag string. -/
def jsElemStr : JSVal → String
  | .vundefined => ""
  | .vnull => ""
  | .vbool b => if b then "true" else "false"
  | .vnum n => toString n
  | .vstr s => s
  | .varr xs => jsJoinElems xs
  | .vobj _ => "[object Object]"

def jsJoinElems : List JSVal → String
  | [] => ""
  | [x] => jsElemStr x
  | x :: y :: xs => jsElemStr x ++ "," ++ jsJoinElems (y :: xs)

end

/-- Splits a character list at the first character satisfying p; the second
component is none when no character matches. -/
def splitFirstBy (p : Char → Bool) : List Char → List Char × Option (List Char)
  | [] => ([], none)
  | c :: cs =>
    if p c then ([], some cs)
    else
      let r := splitFirstBy p cs
      (c :: r.1, r.2)

/-- Whitespace trimming on both ends, the trim JS ToNumber applies before
parsing. -/
def jsTrimChars (l : List Char) : List Char :=
  ((l.dropWhile Char.isWhitespace).reverse.dropWhile Char.isWhitespace).reverse

/-- Decides whether JS ToNumber maps the string to the number 0 (the only
question loose comparison with false needs about a string). Handles the
decimal grammar with optional sign, fraction and exponent, and the 0x/0o/0b
integer prefixes; every string outside that grammar converts to NaN or to a
nonzero number, and both answer false here. -/
def isZeroNumericString (s : String) : Bool :=
  let t := jsTrimChars s.data
  if t.isEmpty then true
  else if t.take 2 == ['0', 'x'] || t.take 2 == ['0', 'X'] then
    let r := t.drop 2
    !r.isEmpty && r.all (fun c => c.isDigit || (97 ≤ c.toNat && c.toNat ≤ 102) || (65 ≤ c.toNat && c.toNat ≤ 70)) && r.all (· == '0')
  else if t.take 2 == ['0', 'o'] || t.take 2 == ['0', 'O'] then
    let r := t.drop 2
    !r.isEmpty && r.all (fun c => 48 ≤ c.toNat && c.toNat ≤ 55) && r.all (· == '0')
  else if t.take 2 == ['0', 'b'] || t.take 2 == ['0', 'B'] then
    let r := t.drop 2
    !r.isEmpty && r.all (fun c => c == '0' || c == '1') && r.all (· == '0')
  else
    let t1 := match t with
      | c :: cs => if c == '+' || c == '-' then cs else c :: cs
      | [] => []
    let mantExp := splitFirstBy (fun c => c == 'e' || c == 'E') t1
    let ipFp := splitFirstBy (fun c => c == '.') mantExp.1
    let ip := ipFp.1
    let fp := (ipFp.2).getD []
    let expOk := match mantExp.2 with
      | none => true
      | some e =>
        let e2 := match e with
          | c :: cs => if c == '+' || c == '-' then cs else c :: cs
          | [] => []
        !e2.isEmpty && e2.all Char.isDigit
    (!ip.isEmpty || !fp.isEmpty) && ip.all Char.isDigit && fp.all Char.isDigit
      && expOk && ip.all (· == '0') && fp.all (· == '0')

/-- Loose equality to false: JS `x == false` converts false to the number 0
and compares. Plain objects convert via "[object Object]" to NaN (never equal);
arrays convert through their joined string. -/
def looseEqFalse : JSVal → Bool
  | .vbool b => !b
  | .vnum n => n == 0
  | .vstr s => isZeroNumericString s
  | .vundefined => false
  | .vnull => false
  | .varr xs => isZeroNumericString (jsJoinElems xs)
  | .vobj _ => false

/-- Property access `v[k]`: a field of an object, undefined otherwise. The
embedded code only dereferences values it has guarded against null/undefined
(which would throw in JS), so the total fallback to undefined is only ever
exercised on non-nullish values. -/
def jget (v : JSVal) (k : String) : JSVal :=
  match v with
  | .vobj fields =>
    match fields.lookup k with
    | some x => x
    | none => .vundefined
  | _ => .vundefined

/- LanguageHelpers (src/unnamed/part_000) -/

def DEFAULT_LANGUAGE_LOOKUP : List (String × String) :=
  [("en", "http://vocab.getty.edu/aat/300388277"),
   ("es", "http://vocab.getty.edu/aat/300389311"),
   ("fr", "http://vocab.getty.edu/aat/300388306")]

def NO_LANGUAGE : String := "NO_LANGUAGE"

/-- Options object passed as languageOptions. Fields the source reads:
fallbackLanguage and includeItemsWithNoLanguage (arbitrary JS values, compared
loosely), and lookupMap (none models absent/undefined; a present map, being an
object, is always truthy for the `languageOptions && languageOptions.lookupMap`
test). -/
structure LanguageOptions where
  fallbackLanguage : JSVal
  includeItemsWithNoLanguage : JSVal
  lookupMap : Option (List (String × String))

/-- The empty options object, the default value `languageOptions = {}`. -/
def emptyLanguageOptions : LanguageOptions := ⟨.vundefined, .vundefined, none⟩

/-- The active lookup map: `languageOptions.lookupMap` when supplied (truthy),
otherwise DEFAULT_LANGUAGE_LOOKUP. -/
def activeLookupMap (opts : LanguageOptions) : List (String × String) :=
  match opts.lookupMap with
  | some m => m
  | none => DEFAULT_LANGUAGE_LOOKUP

def isAsciiAlpha (c : Char) : Bool :=
  (97 ≤ c.toNat && c.toNat ≤ 122) || (65 ≤ c.toNat && c.toNat ≤ 90)

/-- The test `lang.match(/\/[a-zA-Z]+$/)`: the string ends in a slash followed
by one or more ASCII letters. -/
def matchesSlashAlphaEnd (s : String) : Bool :=
  let rev := s.data.reverse
  let run := rev.takeWhile isAsciiAlpha
  !run.isEmpty && (rev.drop run.length).head? == some '/'

/-- JS `s.lastIndexOf(c)`: index of the last occurrence, -1 when absent. -/
def jsLastIndexOf (s : String) (c : Char) : Int :=
  match s.data.reverse.findIdx? (fun x => x == c) with
  | some i => (s.data.length : Int) - 1 - i
  | none => -1

/-- JS `s.substring(i)` for a clamped nonnegative start index. -/
def jsSubstringFrom (s : String) (i : Nat) : String :=
  String.mk (s.data.drop i)

/-- ASCII lower-casing, JS `s.toLowerCase()` on the identifiers in play. -/
def jsToLowerCase (s : String) : String :=
  String.mk (s.data.map Char.toLower)

/-- Lines 169-172 of the source: if the (lower-cased) id matches the trailing
vocab-URL pattern, keep only the part after the last slash. -/
def jsReduceTrailingCode (lang : String) : String :=
  if matchesSlashAlphaEnd lang then
    jsSubstringFrom lang (jsLastIndexOf lang '/' + 1).toNat
  else lang

/-- Embeds normalizeLanguageId (part_000 lines 155-182). A nullish lang_id
yields NO_LANGUAGE; a string is lower-cased, reduced from a vocab URL to its
trailing code, and looked up in the active map, falling back to the original
unmodified input; any other value throws, since only strings carry
toLowerCase. -/
def normalizeLanguageId (lang_id : JSVal) (opts : LanguageOptions) : Except String String :=
  if looseEqUndefined lang_id then .ok NO_LANGUAGE
  else
    match lang_id with
    | .vstr s =>
      let lang := jsReduceTrailingCode (jsToLowerCase s)
      match (activeLookupMap opts).lookup lang with
      | some v => .ok v
      | none => .ok s
    | _ => .error "TypeError: lang_id.toLowerCase is not a function"

/-- JS Set insertion: append the value if no structurally equal value is
already present (insertion order preserved). -/
def setAdd (acc : List JSVal) (v : JSVal) : List JSVal :=
  if acc.any (fun w => beqJS w v) then acc else acc ++ [v]

/-- The forEach loop of getLanguageId (part_000 lines 113-121) collecting raw
language entries into a Set: nullish entries contribute NO_LANGUAGE, string
entries are added as-is, and any other entry contributes its id field when
that id is truthy. -/
def collectRawLangs (xs : List JSVal) : List JSVal :=
  xs.foldl
    (fun acc lang =>
      if looseEqUndefined lang then setAdd acc (.vstr NO_LANGUAGE)
      else
        match lang with
        | .vstr _ => setAdd acc lang
        | _ => if truthy (jget lang "id") then setAdd acc (jget lang "id") else acc)
    []

/-- The `.map(normalizeLanguageId)` over the collected set, propagating the
first TypeError thrown mid-iteration like the JS map would. -/
def mapNormalize (opts : LanguageOptions) : List JSVal → Except String (List String)
  | [] => .ok []
  | v :: vs =>
    match normalizeLanguageId v opts with
    | .error e => .error e
    | .ok r =>
      match mapNormalize opts vs with
      | .error e => .error e
      | .ok rs => .ok (r :: rs)

/-- Embeds getLanguageId (part_000 lines 103-129). A nullish object or
language yields [NO_LANGUAGE]; a string language yields the singleton of its
normalization; an array language is collected into a deduplicated set of raw
entries and then normalized member-wise; any other language value throws,
since only arrays carry forEach. -/
def getLanguageId (obj : JSVal) (opts : LanguageOptions) : Except String (List String) :=
  if looseEqUndefined obj || looseEqUndefined (jget obj "language") then .ok [NO_LANGUAGE]
  else
    match jget obj "language" with
    | .vstr s =>
      match normalizeLanguageId (.vstr s) opts with
      | .ok r => .ok [r]
      | .error e => .error e
    | .varr xs => mapNormalize opts (collectRawLangs xs)
    | _ => .error "TypeError: obj.language.forEach is not a function"

/-- Embeds doesObjectLanguageMatch (part_000 lines 46-83): a nullish language
parameter matches everything; then the primary rule (normalized requested
language among the extracted ids), the fallback rule (guarded by
`fallbackLanguage != undefined`, short-circuiting before normalizing the
fallback), and last the no-language rule, whose exclusion triggers only when
`includeItemsWithNoLanguage == false` under loose equality. -/
def doesObjectLanguageMatch (object language : JSVal) (opts : LanguageOptions) : Except String Bool :=
  if looseEqUndefined language then .ok true
  else
    match getLanguageId object opts with
    | .error e => .error e
    | .ok lang_ids =>
      match normalizeLanguageId language opts with
      | .error e => .error e
      | .ok nlang =>
        if lang_ids.contains nlang then .ok true
        else
          match
            (if looseEqUndefined opts.fallbackLanguage then Except.ok false
             else
               match normalizeLanguageId opts.fallbackLanguage opts with
               | .error e => .error e
               | .ok nfall => .ok (lang_ids.contains nfall) : Except String Bool)
          with
          | .error e => .error e
          | .ok fallbackHit =>
            if fallbackHit then .ok true
            else if lang_ids.contains NO_LANGUAGE || lang_ids.length == 0 then
              if looseEqFalse opts.includeItemsWithNoLanguage then .ok false
              else .ok true
            else .ok false

/- Classification filter and part-traversal helpers. The functions
getValuesByClassification, doesObjectMatchClassification and
getSubfieldInsidePart live in src/helpers/LinkedArtHelpers.js, which is not
under src/ in this snapshot; only their callers in
src/src/helpers/ObjectHelpers.js are. They are therefore modelled from the
words of spec sections 4.2 and 8. -/

/-- Modelled from the spec: the classified_as entries a value carries
(LinkedArtHelpers is missing from src/). An array field contributes its
elements, an absent field nothing, and a single value itself. -/
def classifiedAsList (v : JSVal) : List JSVal :=
  match jget v "classified_as" with
  | .varr xs => xs
  | x => if looseEqUndefined x then [] else [x]

/-- Modelled from the spec: the identifier of one ClassificationRef, which is
either a bare identifier string or an object carrying an id
(LinkedArtHelpers is missing from src/). -/
def classificationRefId (c : JSVal) : Option String :=
  match c with
  | .vstr s => some s
  | _ =>
    match jget c "id" with
    | .vstr s => some s
    | _ => none

/-- Modelled from the spec: the direct classification ids of an entry, the
classified_as[].id values (LinkedArtHelpers is missing from src/). -/
def directClassificationIds (entry : JSVal) : List String :=
  (classifiedAsList entry).filterMap classificationRefId

/-- Modelled from the spec: the ids carried one level deeper, on the
classified_as arrays of the classifications themselves - exactly one level of
indirection, not unbounded recursion (LinkedArtHelpers is missing from
src/). -/
def oneLevelClassificationIds (entry : JSVal) : List String :=
  (classifiedAsList entry).flatMap (fun c => (classifiedAsList c).filterMap classificationRefId)

/-- Modelled from the spec: the matching predicate of section 4.2 - normalize
every classification id the entry carries, directly or at one level of
indirection, and test membership among the requested ids (LinkedArtHelpers is
missing from src/; norm stands for the opaque AAT-id normalization). -/
def doesObjectMatchClassification (norm : String → String) (entry : JSVal)
    (requestedIds : List String) : Bool :=
  (directClassificationIds entry ++ oneLevelClassificationIds entry).any
    (fun i => requestedIds.contains (norm i))

/-- Modelled from the spec: the filter loop of getValuesByClassification,
keeping entries that pass both the language check and the classification
predicate, propagating a thrown TypeError (LinkedArtHelpers is missing from
src/). -/
def filterEntriesByClassification (norm : String → String) (requestedIds : List String)
    (language : JSVal) (opts : LanguageOptions) : List JSVal → Except String (List JSVal)
  | [] => .ok []
  | e :: es =>
    match doesObjectLanguageMatch e language opts with
    | .error err => .error err
    | .ok langOk =>
      match filterEntriesByClassification norm requestedIds language opts es with
      | .error err => .error err
      | .ok rest =>
        .ok (if langOk && doesObjectMatchClassification norm e requestedIds
             then e :: rest else rest)

/-- Modelled from the spec: filterByClassification of section 4.2 - absent
entries are treated as empty, an array is filtered entry-wise, a single value
is treated as a one-entry sequence (LinkedArtHelpers is missing from src/). -/
def filterByClassification (norm : String → String) (entries : JSVal)
    (requestedIds : List String) (language : JSVal) (opts : LanguageOptions) :
    Except String (List JSVal) :=
  match entries with
  | .varr xs => filterEntriesByClassification norm requestedIds language opts xs
  | x =>
    if looseEqUndefined x then .ok []
    else filterEntriesByClassification norm requestedIds language opts [x]

/-- Modelled from the spec: the values found under a key, flattened - an array
contributes its elements, an absent value nothing, a single value itself
(LinkedArtHelpers is missing from src/). -/
def collectFieldValues (v : JSVal) : List JSVal :=
  match v with
  | .varr xs => xs
  | x => if looseEqUndefined x then [] else [x]

/-- Modelled from the spec: getSubfieldInsidePart of section 4.2
(LinkedArtHelpers is missing from src/) - if object[outerKey] is absent the
result is empty; otherwise the innerKey values found directly on
object[outerKey] come first, followed by the innerKey values found on every
element of object[outerKey].part; always a flat list, never undefined. -/
def getSubfieldInsidePart (object : JSVal) (outerKey innerKey : String) : List JSVal :=
  let outer := jget object outerKey
  if looseEqUndefined outer then []
  else
    let direct := collectFieldValues (jget outer innerKey)
    let partHits :=
      (collectFieldValues (jget outer "part")).flatMap
        (fun p => collectFieldValues (jget p innerKey))
    direct ++ partHits

/- ObjectHelpers.js constants and getCarriedOutBy (src/src/helpers/ObjectHelpers.js lines 15-17 and 64-66). -/

def PRODUCED_BY : String := "produced_by"

def CARRIED_OUT_BY : String := "carried_out_by"

/-- Embeds getCarriedOutBy (ObjectHelpers.js lines 64-66): the wrapper that
reads produced_by / carried_out_by through getSubfieldInsidePart. -/
def getCarriedOutBy (object : JSVal) : List JSVal :=
  getSubfieldInsidePart object PRODUCED_BY CARRIED_OUT_BY

/- Shared lemmas -/

/-- Normalizing a string identifier whose reduced, lower-cased form is absent
from the active lookup map returns the original string unchanged. -/
theorem normalizeLanguageId_of_lookup_none (s : String) (opts : LanguageOptions)
    (h : (activeLookupMap opts).lookup (jsReduceTrailingCode (jsToLowerCase s)) = none) :
    normalizeLanguageId (.vstr s) opts = .ok s := by
  unfold normalizeLanguageId
  simp [looseEqUndefined, h]

/-- Normalizing a string identifier never throws. -/
theorem normalizeLanguageId_str_ok (s : String) (opts : LanguageOptions) :
    ∃ r, normalizeLanguageId (.vstr s) opts = .ok r := by
  unfold normalizeLanguageId
  simp only [looseEqUndefined]
  cases h : (activeLookupMap opts).lookup (jsReduceTrailingCode (jsToLowerCase s)) with
  | none => exact ⟨s, by simp [h]⟩
  | some v => exact ⟨v, by simp [h]⟩

/-- On an object whose language field is a string, getLanguageId is the
singleton of that string's normalization. -/
theorem getLanguageId_of_lang_str (fields : List (String × JSVal)) (opts : LanguageOptions)
    (s : String) (h : jget (.vobj fields) "language" = .vstr s)
    (r : String) (hn : normalizeLanguageId (.vstr s) opts = .ok r) :
    getLanguageId (.vobj fields) opts = .ok [r] := by
  unfold getLanguageId
  rw [h]
  simp [looseEqUndefined, hn]

/- Claim theorems -/

/-- C1: doesObjectLanguageMatch checks the fallback-language rule before the
no-language rule. For a fragment whose language is exactly the single string
"fr", requesting "en" with fallbackLanguage "fr" and
includeItemsWithNoLanguage false returns true, while requesting "en" with
empty options returns false. -/
theorem doesObjectLanguageMatch_fallback_before_no_language
    (fields : List (String × JSVal))
    (h : jget (.vobj fields) "language" = .vstr "fr") :
    doesObjectLanguageMatch (.vobj fields) (.vstr "en")
      ⟨.vstr "fr", .vbool false, none⟩ = .ok true ∧
    doesObjectLanguageMatch (.vobj fields) (.vstr "en") emptyLanguageOptions = .ok false := by
  have h1 := getLanguageId_of_lang_str fields ⟨.vstr "fr", .vbool false, none⟩ "fr" h
    "http://vocab.getty.edu/aat/300388306" rfl
  have h2 := getLanguageId_of_lang_str fields emptyLanguageOptions "fr" h
    "http://vocab.getty.edu/aat/300388306" rfl
  constructor
  · unfold doesObjectLanguageMatch
    rw [h1]
    rfl
  · unfold doesObjectLanguageMatch
    rw [h2]
    rfl

/-- C1 witness: the two calls evaluated on the concrete fragment with
language "fr". -/
theorem doesObjectLanguageMatch_fallback_before_no_language_witness :
    doesObjectLanguageMatch (.vobj [("language", .vstr "fr")]) (.vstr "en")
      ⟨.vstr "fr", .vbool false, none⟩ = .ok true ∧
    doesObjectLanguageMatch (.vobj [("language", .vstr "fr")]) (.vstr "en")
      emptyLanguageOptions = .ok false :=
  doesObjectLanguageMatch_fallback_before_no_language [("language", .vstr "fr")] rfl

/-- C2: for every string identifier whose lower-cased, path-reduced form is
not a key of the active lookup map, normalizeLanguageId returns the original
input itself, not the lower-cased or reduced form. -/
theorem normalizeLanguageId_identity_fallback (s : String) (opts : LanguageOptions)
    (h : (activeLookupMap opts).lookup (jsReduceTrailingCode (jsToLowerCase s)) = none) :
    normalizeLanguageId (.vstr s) opts = .ok s :=
  normalizeLanguageId_of_lookup_none s opts h

/-- C2 witness: the unmapped identifier "ZZ" comes back with its original
casing, not as "zz". -/
theorem normalizeLanguageId_identity_fallback_witness :
    (activeLookupMap emptyLanguageOptions).lookup
      (jsReduceTrailingCode (jsToLowerCase "ZZ")) = none ∧
    normalizeLanguageId (.vstr "ZZ") emptyLanguageOptions = .ok "ZZ" :=
  ⟨rfl, normalizeLanguageId_identity_fallback "ZZ" emptyLanguageOptions rfl⟩

/-- C3: the claim that getLanguageId never returns duplicates fails: the
fragment with language ["en", "EN"] is deduplicated before normalization
only, and both raw entries normalize to the same canonical id, so the
returned list holds that id twice, contradicting the unique-list contract of
the function's own documentation. -/
theorem getLanguageId_duplicates_after_normalization :
    getLanguageId (.vobj [("language", .varr [.vstr "en", .vstr "EN"])])
      emptyLanguageOptions
      = .ok ["http://vocab.getty.edu/aat/300388277",
             "http://vocab.getty.edu/aat/300388277"] ∧
    ¬ List.Nodup ["http://vocab.getty.edu/aat/300388277",
                  "http://vocab.getty.edu/aat/300388277"] :=
  ⟨rfl, by decide⟩

/-- C4 counterexample: a fragment whose language attribute is an empty array
(or an array of entries without a usable id) makes getLanguageId return the
empty list, so the returned collection is not always non-empty. -/
theorem getLanguageId_empty_array_counterexample :
    getLanguageId (.vobj [("language", .varr [])]) emptyLanguageOptions = .ok [] ∧
    getLanguageId (.vobj [("language", .varr [.vobj [("type", .vstr "Language")]])])
      emptyLanguageOptions = .ok [] :=
  ⟨rfl, rfl⟩

/-- C4 amended: getLanguageId returns exactly [NO_LANGUAGE] for an undefined
fragment or a fragment whose language attribute is nullish, and a non-empty
singleton for a string language attribute; only an array language attribute
can produce an empty result. -/
theorem getLanguageId_nonempty_amended (obj : JSVal) (opts : LanguageOptions) :
    ((looseEqUndefined obj || looseEqUndefined (jget obj "language")) = true →
      getLanguageId obj opts = .ok [NO_LANGUAGE]) ∧
    (∀ s : String, jget obj "language" = .vstr s →
      ∃ ids, getLanguageId obj opts = .ok ids ∧ ids ≠ []) := by
  constructor
  · intro h
    unfold getLanguageId
    rw [h]
    rfl
  · intro s hs
    obtain ⟨r, hr⟩ := normalizeLanguageId_str_ok s opts
    cases obj with
    | vobj fields =>
      exact ⟨[r], getLanguageId_of_lang_str fields opts s hs r hr, by simp⟩
    | vundefined => simp [jget] at hs
    | vnull => simp [jget] at hs
    | vbool b => simp [jget] at hs
    | vnum n => simp [jget] at hs
    | vstr t => simp [jget] at hs
    | varr xs => simp [jget] at hs

/-- C4 witness: the amended statement evaluated on a fragment without a
language field and on a fragment with the string language "de". -/
theorem getLanguageId_nonempty_amended_witness :
    getLanguageId (.vobj [("id", .vstr "1")]) emptyLanguageOptions = .ok [NO_LANGUAGE] ∧
    ∃ ids, getLanguageId (.vobj [("language", .vstr "de")]) emptyLanguageOptions
      = .ok ids ∧ ids ≠ [] :=
  ⟨(getLanguageId_nonempty_amended (.vobj [("id", .vstr "1")]) emptyLanguageOptions).1 rfl,
   (getLanguageId_nonempty_amended (.vobj [("language", .vstr "de")]) emptyLanguageOptions).2
     "de" rfl⟩

/-- C5 counterexample: with includeItemsWithNoLanguage set to the number 0
(a falsy value other than the boolean false), the no-language branch still
excludes the fragment, because the source compares with loose equality and
0 == false holds in JS; the claim says this call returns true. -/
theorem doesObjectLanguageMatch_zero_counterexample :
    doesObjectLanguageMatch (.vobj [("id", .vstr "1")]) (.vstr "en")
      ⟨.vundefined, .vnum 0, none⟩ = .ok false :=
  rfl

/-- C5 amended: for a fragment that reaches the no-language branch (its
extracted set contains NO_LANGUAGE or is empty, the primary rule fails, and
no fallback is set), the result is the negation of the loose-equality test
includeItemsWithNoLanguage == false: the boolean false, the number 0 and
numeric-zero strings such as "" exclude, while null, undefined and all other
values include. -/
theorem doesObjectLanguageMatch_no_language_loose_false
    (obj : JSVal) (s : String) (opts : LanguageOptions) (ids : List String) (nid : String)
    (hfb : looseEqUndefined opts.fallbackLanguage = true)
    (hg : getLanguageId obj opts = .ok ids)
    (hn : normalizeLanguageId (.vstr s) opts = .ok nid)
    (hno : (ids.contains NO_LANGUAGE || ids.length == 0) = true)
    (hmiss : ids.contains nid = false) :
    doesObjectLanguageMatch obj (.vstr s) opts
      = .ok (!looseEqFalse opts.includeItemsWithNoLanguage) := by
  unfold doesObjectLanguageMatch
  rw [hg, hn, hfb]
  simp only [looseEqUndefined, hmiss, hno]
  cases hinc : looseEqFalse opts.includeItemsWithNoLanguage <;> simp [hinc]

/-- C5 witness: the empty string excludes (it is loosely equal to false),
while null includes. -/
theorem doesObjectLanguageMatch_no_language_loose_false_witness :
    doesObjectLanguageMatch (.vobj []) (.vstr "en") ⟨.vundefined, .vstr "", none⟩ = .ok false ∧
    doesObjectLanguageMatch (.vobj []) (.vstr "en") ⟨.vundefined, .vnull, none⟩ = .ok true := by
  constructor
  · exact doesObjectLanguageMatch_no_language_loose_false (.vobj []) "en"
      ⟨.vundefined, .vstr "", none⟩ [NO_LANGUAGE] "http://vocab.getty.edu/aat/300388277"
      rfl rfl rfl (by decide) (by decide)
  · exact doesObjectLanguageMatch_no_language_loose_false (.vobj []) "en"
      ⟨.vundefined, .vnull, none⟩ [NO_LANGUAGE] "http://vocab.getty.edu/aat/300388277"
      rfl rfl rfl (by decide) (by decide)

/-- C6: the no-throw claim fails in the code: a fragment whose language
attribute is a plain object (a case the function's own documentation shows
returning a value) makes getLanguageId call forEach on a non-array and throw
a TypeError, and a non-string language identifier makes normalizeLanguageId
call toLowerCase on a non-string and throw a TypeError. -/
theorem getLanguageId_object_language_throws :
    getLanguageId (.vobj [("language", .vobj [("id", .vstr "en")])]) emptyLanguageOptions
      = .error "TypeError: obj.language.forEach is not a function" ∧
    normalizeLanguageId (.vnum 42) emptyLanguageOptions
      = .error "TypeError: lang_id.toLowerCase is not a function" :=
  ⟨rfl, rfl⟩

/-- C7: a supplied lookupMap entirely replaces the default table: any
identifier absent from the supplied map falls back to the raw input even when
the default table maps it, and without a supplied map the default table still
maps "en" to its AAT id. -/
theorem normalizeLanguageId_custom_map_replaces_default
    (s : String) (m : List (String × String)) (fb inc : JSVal)
    (h : m.lookup (jsReduceTrailingCode (jsToLowerCase s)) = none) :
    normalizeLanguageId (.vstr s) ⟨fb, inc, some m⟩ = .ok s ∧
    normalizeLanguageId (.vstr "en") ⟨fb, inc, none⟩
      = .ok "http://vocab.getty.edu/aat/300388277" := by
  constructor
  · exact normalizeLanguageId_of_lookup_none s ⟨fb, inc, some m⟩ h
  · rfl

/-- C7 witness: "en" under a custom map lacking it comes back unchanged,
while the default table maps it. -/
theorem normalizeLanguageId_custom_map_replaces_default_witness :
    normalizeLanguageId (.vstr "en") ⟨.vundefined, .vundefined, some [("zz", "x")]⟩ = .ok "en" ∧
    normalizeLanguageId (.vstr "en") ⟨.vundefined, .vundefined, none⟩
      = .ok "http://vocab.getty.edu/aat/300388277" :=
  ⟨(normalizeLanguageId_custom_map_replaces_default "en" [("zz", "x")] .vundefined .vundefined rfl).1,
   (normalizeLanguageId_custom_map_replaces_default "en" [("zz", "x")] .vundefined .vundefined rfl).2⟩

/-- C8: the classification filter's transitive match is exactly one level of
indirection: an entry classified as X whose classification X is itself
classified as Y is found when filtering by Y (and by its direct id X), but an
id nested two classification levels deep is not found. -/
theorem filterByClassification_one_level_transitive :
    filterByClassification (fun i => i)
      (.varr [.vobj [("classified_as", .varr [.vobj [("id", .vstr "X"),
        ("classified_as", .varr [.vobj [("id", .vstr "Y")]])]])]])
      ["Y"] .vundefined emptyLanguageOptions
      = .ok [.vobj [("classified_as", .varr [.vobj [("id", .vstr "X"),
        ("classified_as", .varr [.vobj [("id", .vstr "Y")]])]])]] ∧
    filterByClassification (fun i => i)
      (.varr [.vobj [("classified_as", .varr [.vobj [("id", .vstr "X"),
        ("classified_as", .varr [.vobj [("id", .vstr "Y"),
          ("classified_as", .varr [.vobj [("id", .vstr "Z")]])]])]])]])
      ["Z"] .vundefined emptyLanguageOptions
      = .ok [] ∧
    filterByClassification (fun i => i)
      (.varr [.vobj [("classified_as", .varr [.vobj [("id", .vstr "X")]])]])
      ["X"] .vundefined emptyLanguageOptions
      = .ok [.vobj [("classified_as", .varr [.vobj [("id", .vstr "X")]])]] :=
  ⟨rfl, rfl, rfl⟩

/-- C9: getSubfieldInsidePart returns a flat list, never undefined, with
direct hits before part hits: the documented produced_by / part /
carried_out_by example yields [the id-123 reference], the empty object yields
[], and getCarriedOutBy is exactly the produced_by / carried_out_by
instance. -/
theorem getSubfieldInsidePart_flat_array :
    getSubfieldInsidePart
      (.vobj [("produced_by", .vobj [("part",
        .varr [.vobj [("carried_out_by", .vobj [("id", .vnum 123)])]])])])
      "produced_by" "carried_out_by" = [.vobj [("id", .vnum 123)]] ∧
    getSubfieldInsidePart (.vobj []) "produced_by" "carried_out_by" = [] ∧
    (∀ object : JSVal,
      getCarriedOutBy object = getSubfieldInsidePart object "produced_by" "carried_out_by") :=
  ⟨rfl, rfl, fun _ => rfl⟩

/-- C10: a null requested language matches every object under every option
set, exactly as an undefined one does, because the unconstrained-query rule
compares the requested language to undefined with loose equality. -/
theorem doesObjectLanguageMatch_null_language_matches_all
    (object : JSVal) (opts : LanguageOptions) :
    doesObjectLanguageMatch object .vnull opts = .ok true ∧
    doesObjectLanguageMatch object .vundefined opts = .ok true :=
  ⟨rfl, rfl⟩
